import Mathlib

/-!
Verification of the stream-replication core of the dynamodb-adapter
repository against its natural-language specification.

The Lean definitions below are a shallow embedding of the Go sources:

* streamreplication/replicator.go        (the RecordDispatcher / replicator)
* streamreplication/dynamo/stream.go     (ShardCatalog + ShardScheduler / Streamer)
* streamreplication/spanner stream       (the pubsub PushConsumer)
* streamreplication/inject.go            (wiring)

Go maps are embedded as association lists keyed by String with
last-writer-wins insertion semantics; Go errors are an inductive type with
an explicit wrap constructor mirroring pkg/errors.Wrap; the external
collaborators (AWS stream client, pubsub, target adapter) are parameters:
the stream client is a list of pages, the adapter is a function giving the
outcome of each write, listeners are plain functions.
-/

set_option autoImplicit false

namespace DynamodbAdapter

universe u

/-! ## Go-side primitive embeddings -/

/-- A DynamoDB item / attribute-value map, rendered to its flat form.
Item contents are opaque to the replication engine, which only moves them. -/
abbrev Item := List (String × String)

/-- Embedding of Go error values: a base error message or a wrapped error as
produced by errors.Wrap from pkg/errors. -/
inductive GoError where
  | base (msg : String)
  | wrap (msg : String) (inner : GoError)
deriving DecidableEq, Repr

/-- errors.Wrap from pkg/errors: wrapping nil returns nil, wrapping a
non-nil error annotates it. -/
def errorsWrap (e : Option GoError) (msg : String) : Option GoError :=
  match e with
  | none => none
  | some err => some (GoError.wrap msg err)

/-- Association list standing in for a Go map with String keys. -/
abbrev SMap (α : Type u) := List (String × α)

/-- Go map read m[k]: first binding of the key, if any. -/
def mapLookup {α : Type u} : SMap α → String → Option α
  | [], _ => none
  | (a, b) :: rest, k => if a = k then some b else mapLookup rest k

/-- Go map write m[k] = v: replace the binding if the key is present,
append it otherwise. -/
def mapInsert {α : Type u} : SMap α → String → α → SMap α
  | [], k, v => [(k, v)]
  | (a, b) :: rest, k, v =>
    if a = k then (k, v) :: rest else (a, b) :: mapInsert rest k v

/-- Go map delete(m, k). -/
def mapErase {α : Type u} : SMap α → String → SMap α
  | [], _ => []
  | (a, b) :: rest, k =>
    if a = k then mapErase rest k else (a, b) :: mapErase rest k

/-! ## Data model: stream records (ds.Record) -/

/-- Embedding of ds.StreamRecord: the sequence number and the key / image
attribute maps carried by one change record. -/
structure StreamRecordData where
  sequenceNumber : String
  keys : Item
  newImage : Item
  oldImage : Item
deriving DecidableEq, Repr

/-- Embedding of ds.Record. EventName is a *string pointer in Go, hence an
Option here; dereferencing none is a panic. -/
structure DSRecord where
  eventName : Option String
  dynamodb : StreamRecordData
deriving DecidableEq, Repr

/-! ## RecordDispatcher: streamreplication/replicator.go -/

/-- One call made against the target adapter (the SpannerService interface:
PutItem / UpdateItem / DeleteItem). -/
inductive AdapterCall where
  | putItem (tableName : String) (item : Item)
  | updateItem (tableName : String) (item : Item)
  | deleteItem (tableName : String) (keys : Item)
deriving DecidableEq, Repr

/-- Behaviour of the target adapter: the outcome each write would return.
none is success, some is the error value the adapter returns. -/
structure SpannerBehavior where
  putItemResult : String → Item → Option GoError
  updateItemResult : String → Item → Option GoError
  deleteItemResult : String → Item → Option GoError

/-- An event handler from the replicator's opMap: given the record it
produces the list of adapter calls it performs and its returned error. -/
abbrev Handler := DSRecord → List AdapterCall × Option GoError

/-- replicator.insert: build a PutItem request from the record's NewImage
and issue it; the handler's error is the adapter's PutItem error. -/
def insertHandler (dynamoTableName : String) (svc : SpannerBehavior) : Handler :=
  fun record =>
    ([AdapterCall.putItem dynamoTableName record.dynamodb.newImage],
      svc.putItemResult dynamoTableName record.dynamodb.newImage)

/-- replicator.modify: identical to insert — PutItem is used as an upsert. -/
def modifyHandler (dynamoTableName : String) (svc : SpannerBehavior) : Handler :=
  fun record =>
    ([AdapterCall.putItem dynamoTableName record.dynamodb.newImage],
      svc.putItemResult dynamoTableName record.dynamodb.newImage)

/-- replicator.remove: only logs the delete request; no adapter call is
made and nil is returned. -/
def removeHandler (_dynamoTableName : String) (_svc : SpannerBehavior) : Handler :=
  fun _record => ([], none)

/-- ProvideReplicator's RegisterEventHandler calls: the opMap holds exactly
the three handlers, keyed by the AWS operation-type constants. -/
def provideOpMap (dynamoTableName : String) (svc : SpannerBehavior) : SMap Handler :=
  mapInsert
    (mapInsert
      (mapInsert [] "INSERT" (insertHandler dynamoTableName svc))
      "MODIFY" (modifyHandler dynamoTableName svc))
    "REMOVE" (removeHandler dynamoTableName svc)

/-- Result of calling replicator.ReplicateRecord: either the Go function
returns (stopOnError, err) having made some adapter calls, or it panics
(nil-pointer dereference of EventName, or calling the nil handler that a
failed map lookup yields). -/
inductive ReplicateOutcome where
  | panicked (msg : String)
  | returned (stopOnError : Bool) (err : Option GoError) (calls : List AdapterCall)
deriving DecidableEq, Repr

def ReplicateOutcome.isPanicked : ReplicateOutcome → Bool
  | .panicked _ => true
  | .returned _ _ _ => false

/-- replicator.ReplicateRecord: if stopped return (true, nil); otherwise
look the handler up by the dereferenced EventName and call it, wrapping its
error with errors.Wrap(err, ""). A nil shardId or nil EventName pointer
dereference panics, and so does invoking the nil handler obtained from a
lookup of an unregistered event name. -/
def replicateRecord (opMap : SMap Handler) (stop : Bool)
    (shardId : Option String) (record : DSRecord) : ReplicateOutcome :=
  if stop then .returned true none []
  else
    match shardId with
    | none => .panicked "invalid memory address or nil pointer dereference"
    | some _ =>
      match record.eventName with
      | none => .panicked "invalid memory address or nil pointer dereference"
      | some name =>
        match mapLookup opMap name with
        | none => .panicked "invalid memory address or nil pointer dereference"
        | some handler =>
          let result := handler record
          .returned true (errorsWrap result.2 "") result.1

/-! ## Streamer: streamreplication/dynamo/stream.go -/

/-- Embedding of ds.Shard: the shard id and the optional parent shard id. -/
structure Shard where
  shardId : String
  parentShardId : Option String
deriving DecidableEq, Repr

/-- The mutable fields of the Streamer struct: the three shard buckets, the
per-shard checkpoint map and the stop flag. Listeners are kept apart since
they are functions. -/
structure StreamerState where
  streamARN : String
  allShards : SMap Shard
  inProcessShards : SMap Shard
  processedShards : SMap Shard
  shardSequenceNumbers : SMap String
  stop : Bool
deriving DecidableEq, Repr

/-- ProvideStreamer: all buckets empty, not stopped. -/
def provideStreamer (streamARN : String) : StreamerState :=
  ⟨streamARN, [], [], [], [], false⟩

/-- A record listener: called with the shard id and the record, returns
(stopOnError, err) as in stream.go's Listener type. -/
abbrev Listener := String → DSRecord → Bool × Option GoError

/-- Streamer.notifyListener: try each listener in order; an error from a
listener flagged stopOnError is returned, an error not so flagged is only
logged and the remaining listeners still run. -/
def notifyListener : List Listener → String → DSRecord → Option GoError
  | [], _, _ => none
  | l :: rest, shardId, record =>
    match l shardId record with
    | (stopOnError, some e) =>
      if stopOnError then some e else notifyListener rest shardId record
    | (_, none) => notifyListener rest shardId record

/-! ### fetchShards (the ShardCatalog refresh) -/

/-- The body of fetchShards' inner loop for one shard returned by
DescribeStream: add it to allShards only when its id is absent from all
three buckets. -/
def addShard (st : StreamerState) (sh : Shard) : StreamerState :=
  if (mapLookup st.allShards sh.shardId).isSome then st
  else if (mapLookup st.inProcessShards sh.shardId).isSome then st
  else if (mapLookup st.processedShards sh.shardId).isSome then st
  else { st with allShards := mapInsert st.allShards sh.shardId sh }

/-- Whether a shard id is already present in any of the three buckets: the
negation of fetchShards' add condition. -/
def shardKnown (st : StreamerState) (id : String) : Bool :=
  (mapLookup st.allShards id).isSome ||
    (mapLookup st.inProcessShards id).isSome ||
    (mapLookup st.processedShards id).isSome

/-- Streamer.fetchShards: page through DescribeStream (the client is
embedded as the list of pages it serves, each a list of shards) and merge
every returned shard with addShard. The stop flag is checked at each
iteration but never mutated inside fetchShards, so a stopped streamer
leaves the state untouched. -/
def fetchShards (st : StreamerState) (pages : List (List Shard)) : StreamerState :=
  if st.stop then st
  else pages.foldl (fun s page => page.foldl addShard s) st

/-! ### processShards promotion pass -/

/-- The promotion condition of processShards: parentShardId nil, or the
parent present in processedShards. -/
def promoteEligible (processed : SMap Shard) (sh : Shard) : Bool :=
  match sh.parentShardId with
  | none => true
  | some p => (mapLookup processed p).isSome

/-- One iteration of processShards' first loop: an eligible shard is moved
from allShards to inProcessShards, an ineligible one is left in place. -/
def promoteShard (st : StreamerState) (sh : Shard) : StreamerState :=
  if st.stop then st
  else if promoteEligible st.processedShards sh then
    { st with
      inProcessShards := mapInsert st.inProcessShards sh.shardId sh,
      allShards := mapErase st.allShards sh.shardId }
  else st

/-- processShards' first loop: run the promotion step over every shard
currently in allShards (the range snapshot of the map's values). -/
def promoteShards (st : StreamerState) : StreamerState :=
  (st.allShards.map Prod.snd).foldl promoteShard st

/-! ### processShard (per-shard consumption) -/

/-- The two GetShardIterator positions used by processShard. -/
inductive ShardIteratorType where
  | trimHorizon
  | afterSequenceNumber
deriving DecidableEq, Repr

/-- Embedding of ds.GetShardIteratorInput as built by processShard. -/
structure GetShardIteratorInput where
  streamArn : String
  shardId : String
  shardIteratorType : ShardIteratorType
  sequenceNumber : Option String
deriving DecidableEq, Repr

/-- processShard's iterator choice: TrimHorizon when no last sequence id is
known, AfterSequenceNumber with that id otherwise. -/
def shardIteratorInputFor (streamARN : String) (shard : Shard)
    (lastSequenceId : Option String) : GetShardIteratorInput :=
  match lastSequenceId with
  | none => ⟨streamARN, shard.shardId, .trimHorizon, none⟩
  | some s => ⟨streamARN, shard.shardId, .afterSequenceNumber, some s⟩

/-- Outcome of processShard's inner record loop over one page. -/
structure RecsResult where
  seqMap : SMap String
  dispatched : List DSRecord
  error : Option GoError
deriving DecidableEq, Repr

/-- processShard's loop over the records of one page: each record is handed
to notifyListener; on success the shard's checkpoint entry is immediately
set to the record's sequence number, on a returned error the loop aborts.
A set stop flag skips every remaining record. -/
def processRecs (listeners : List Listener) (stop : Bool) (shardId : String) :
    List DSRecord → SMap String → RecsResult
  | [], m => ⟨m, [], none⟩
  | record :: rest, m =>
    if stop then processRecs listeners stop shardId rest m
    else
      match notifyListener listeners shardId record with
      | some e => ⟨m, [], some e⟩
      | none =>
        let m' := mapInsert m shardId record.dynamodb.sequenceNumber
        let res := processRecs listeners stop shardId rest m'
        ⟨res.seqMap, record :: res.dispatched, res.error⟩

/-- Outcome of processShard. -/
structure ShardResult where
  complete : Bool
  error : Option GoError
  seqMap : SMap String
  dispatched : List DSRecord
deriving DecidableEq, Repr

/-- processShard's page loop. GetRecords pages are embedded as the list of
pages the client serves; a nil NextShardIterator is the end of that list.
At each loop head: a nil iterator or a set stop flag exits with
(complete = true); a nilForCount that has reached 5 exits with
(complete = false, nil). After a page, nilForCount is incremented when the
page was empty — it is never reset. -/
def processPages (listeners : List Listener) (stop : Bool) (shardId : String) :
    List (List DSRecord) → Nat → SMap String → ShardResult
  | [], _, m => ⟨true, none, m, []⟩
  | page :: rest, nilForCount, m =>
    if stop then ⟨true, none, m, []⟩
    else if nilForCount = 5 then ⟨false, none, m, []⟩
    else
      let r := processRecs listeners stop shardId page m
      match r.error with
      | some e => ⟨false, some e, r.seqMap, r.dispatched⟩
      | none =>
        let nc := if page.length = 0 then nilForCount + 1 else nilForCount
        let res := processPages listeners stop shardId rest nc r.seqMap
        ⟨res.complete, res.error, res.seqMap, r.dispatched ++ res.dispatched⟩

/-- Full result of Streamer.processShard: the GetShardIterator request it
issues plus the outcome of its page loop. -/
structure ProcessShardOutput where
  iteratorRequest : GetShardIteratorInput
  complete : Bool
  error : Option GoError
  seqMap : SMap String
  dispatched : List DSRecord
deriving DecidableEq, Repr

/-- Streamer.processShard over the pages served for this shard, starting
from checkpoint map m with nilForCount 0. -/
def processShard (streamARN : String) (listeners : List Listener) (stop : Bool)
    (shard : Shard) (lastSequenceId : Option String)
    (pages : List (List DSRecord)) (m : SMap String) : ProcessShardOutput :=
  let req := shardIteratorInputFor streamARN shard lastSequenceId
  let r := processPages listeners stop shard.shardId pages 0 m
  ⟨req, r.complete, r.error, r.seqMap, r.dispatched⟩

/-! ### processShards consumption pass -/

/-- One iteration of processShards' second loop: read the shard's recorded
checkpoint (lastSequenceNumber), run processShard, abort the pass on an
error, and move the shard to processedShards only when processShard
reported complete. env gives the GetRecords pages served per shard id. -/
def consumeShard (env : String → List (List DSRecord))
    (listeners : List Listener) (st : StreamerState) (sh : Shard) :
    Except GoError StreamerState :=
  if st.stop then .ok st
  else
    let lastSeq := mapLookup st.shardSequenceNumbers sh.shardId
    let out := processShard st.streamARN listeners st.stop sh lastSeq
      (env sh.shardId) st.shardSequenceNumbers
    match out.error with
    | some e => .error e
    | none =>
      let st' := { st with shardSequenceNumbers := out.seqMap }
      if out.complete then
        .ok { st' with
          processedShards := mapInsert st'.processedShards sh.shardId sh,
          inProcessShards := mapErase st'.inProcessShards sh.shardId }
      else .ok st'

/-- processShards' second loop over the in-process bucket. -/
def consumeShards (env : String → List (List DSRecord))
    (listeners : List Listener) (st : StreamerState) :
    Except GoError StreamerState :=
  (st.inProcessShards.map Prod.snd).foldlM (consumeShard env listeners) st

/-- One pass of the processShards scheduling loop: the promotion pass over
allShards followed by the consumption pass over inProcessShards. -/
def processShardsPass (env : String → List (List DSRecord))
    (listeners : List Listener) (st : StreamerState) :
    Except GoError StreamerState :=
  consumeShards env listeners (promoteShards st)

/-! ## PushConsumer: the spanner pubsub Streamer -/

/-- Embedding of models.StreamDataModel as decoded from a pubsub message:
the event metadata plus the three attribute payloads still in their
pre-marshal form (kept opaque as Strings). -/
structure StreamDataModel where
  eventName : String
  eventSourceArn : String
  eventID : String
  keys : String
  newImage : String
  oldImage : String
deriving DecidableEq, Repr

/-- What the per-message closure of spanner Streamer.Stream does with one
message: either m.Ack() on success, or — via the recovered panic — exactly
one m.Nack() followed by exactly one cancel(). -/
inductive PushOutcome where
  | acked
  | nackedCancelled (e : GoError)
deriving DecidableEq, Repr

def ackCount : PushOutcome → Nat
  | .acked => 1
  | .nackedCancelled _ => 0

def nackCount : PushOutcome → Nat
  | .acked => 0
  | .nackedCancelled _ => 1

def cancelCount : PushOutcome → Nat
  | .acked => 0
  | .nackedCancelled _ => 1

/-- The per-message closure of spanner Streamer.Stream: json-decode the
payload, marshal the three attribute maps, build a ds.Record whose shard id
and sequence number are both the EventID, notify the listeners, then Ack;
any failure panics and the deferred recover performs Nack and cancel. The
external json.Unmarshal and dynamodbattribute.MarshalMap collaborators are
the unmarshal and marshalMap parameters. -/
def handlePushMessage (unmarshal : List Nat → Except GoError StreamDataModel)
    (marshalMap : String → Except GoError Item)
    (listeners : List Listener) (data : List Nat) : PushOutcome :=
  match unmarshal data with
  | .error e => .nackedCancelled (GoError.wrap "failed to unmarshal pubsub record" e)
  | .ok sr =>
    match marshalMap sr.keys with
    | .error e => .nackedCancelled (GoError.wrap "failed to marshal keys" e)
    | .ok keys =>
      match marshalMap sr.newImage with
      | .error e => .nackedCancelled (GoError.wrap "failed to marshal new image" e)
      | .ok newImage =>
        match marshalMap sr.oldImage with
        | .error e => .nackedCancelled (GoError.wrap "failed to marshal old image" e)
        | .ok oldImage =>
          match notifyListener listeners sr.eventID
              ⟨some sr.eventName, ⟨sr.eventID, keys, newImage, oldImage⟩⟩ with
          | some e => .nackedCancelled (GoError.wrap "failed to notify listeners" e)
          | none => .acked

/-- Modelled from the spec: the success condition of one push message —
payload decoding (json decode plus the three attribute marshals) and
dispatch all succeed. Used to compare handlePushMessage against the spec's
acknowledge-iff-success wording. -/
def specPushSuccess (unmarshal : List Nat → Except GoError StreamDataModel)
    (marshalMap : String → Except GoError Item)
    (listeners : List Listener) (data : List Nat) : Bool :=
  match unmarshal data with
  | .error _ => false
  | .ok sr =>
    match marshalMap sr.keys, marshalMap sr.newImage, marshalMap sr.oldImage with
    | .ok keys, .ok newImage, .ok oldImage =>
      (notifyListener listeners sr.eventID
        ⟨some sr.eventName, ⟨sr.eventID, keys, newImage, oldImage⟩⟩).isNone
    | _, _, _ => false

/-! ## Small helper functions used by the theorem statements -/

/-- The last element of a list, with an explicit default: lastD l d is the
last element of l, or d when l is empty. -/
def lastD {α : Type u} : List α → Option α → Option α
  | [], d => d
  | a :: rest, _ => lastD rest (some a)

/-- The sequence number of the last record of a list, with an explicit
default checkpoint value for the empty list. -/
def lastSeqOf (records : List DSRecord) (dflt : Option String) : Option String :=
  match records with
  | [] => dflt
  | r :: rest => lastSeqOf rest (some r.dynamodb.sequenceNumber)

/-- Modelled from the spec: the iterator request the spec asks for when a
shard's consumption starts from an optional checkpoint — trim-horizon when
no checkpoint exists, after-sequence-number of exactly the checkpointed
sequence number otherwise. -/
def specResumeIteratorRequest (streamARN : String) (shardId : String)
    (checkpoint : Option String) : GetShardIteratorInput :=
  match checkpoint with
  | none => ⟨streamARN, shardId, .trimHorizon, none⟩
  | some s => ⟨streamARN, shardId, .afterSequenceNumber, some s⟩

/-- Modelled from the spec (claim wording for the empty-read counter):
whether a list of pages contains 5 *consecutive* empty pages, with the
running count reset by every non-empty page. -/
def consecutiveEmptyReaches (threshold : Nat) : List (List DSRecord) → Nat → Bool
  | [], _ => false
  | page :: rest, n =>
    if page.length = 0 then
      if n + 1 = threshold then true else consecutiveEmptyReaches threshold rest (n + 1)
    else consecutiveEmptyReaches threshold rest 0

/-! ## Concrete fixtures used by witnesses -/

/-- A target adapter on which every write succeeds. -/
def svcOk : SpannerBehavior :=
  ⟨fun _ _ => none, fun _ _ => none, fun _ _ => none⟩

def removeRecordW : DSRecord := ⟨some "REMOVE", ⟨"7", [("id", "1")], [], [("id", "1")]⟩⟩

def insertRecordW : DSRecord :=
  ⟨some "INSERT", ⟨"1", [("id", "1")], [("id", "1"), ("name", "x")], []⟩⟩

def unknownRecordW : DSRecord := ⟨some "TRUNCATE", ⟨"9", [("id", "2")], [], []⟩⟩

/-- The spec's discovery scenario: shard A has no parent. -/
def shardA : Shard := ⟨"A", none⟩

/-- The spec's discovery scenario: shard B is a child of A. -/
def shardB : Shard := ⟨"B", some "A"⟩

def pagesW : List (List Shard) := [[shardA], [shardB]]

/-- A streamer state that has discovered both scenario shards and processed
neither. -/
def stABW : StreamerState := ⟨"arn", [("A", shardA), ("B", shardB)], [], [], [], false⟩

/-- Pages with at most 4 consecutive empty reads but 5 cumulative ones:
four empty pages, a non-empty page, then empty pages. -/
def pagesC5 : List (List DSRecord) := [[], [], [], [], [insertRecordW], [], []]

/-- A pages environment serving six empty pages for every shard. -/
def envC5 : String → List (List DSRecord) := fun _ => [[], [], [], [], [], []]

def rec1W : DSRecord := ⟨some "INSERT", ⟨"1", [], [("id", "1")], []⟩⟩

def rec2W : DSRecord := ⟨some "INSERT", ⟨"2", [], [("id", "2")], []⟩⟩

/-- A listener that fails (flagging stopOnError) exactly on sequence
number 2. -/
def listenerW : Listener := fun _ record =>
  (true, if record.dynamodb.sequenceNumber = "2" then some (GoError.base "boom")
    else none)

/-- A target adapter that rejects every PutItem. -/
def svcFail : SpannerBehavior :=
  ⟨fun _ _ => some (GoError.base "put rejected"), fun _ _ => none, fun _ _ => none⟩

/-- A pages environment serving one page holding records 1 and 2. -/
def envC7 : String → List (List DSRecord) := fun _ => [[rec1W, rec2W]]

/-! ## Association-map lemmas -/

theorem mapLookup_mapInsert {α : Type u} (m : SMap α) (k : String) (v : α)
    (k' : String) :
    mapLookup (mapInsert m k v) k' = if k = k' then some v else mapLookup m k' := by
  induction m with
  | nil => simp [mapInsert, mapLookup]
  | cons p rest ih =>
    obtain ⟨a, b⟩ := p
    simp only [mapInsert]
    by_cases hak : a = k
    · subst hak
      simp only [if_pos rfl, mapLookup]
      by_cases hk' : a = k' <;> simp [hk']
    · simp only [if_neg hak, mapLookup]
      by_cases hk' : a = k'
      · subst hk'
        have hkk' : ¬ k = a := fun h => hak h.symm
        simp [if_neg hkk']
      · simp [hk', ih]

theorem mapLookup_mapErase {α : Type u} (m : SMap α) (k : String) (k' : String) :
    mapLookup (mapErase m k) k' = if k = k' then none else mapLookup m k' := by
  induction m with
  | nil => simp [mapErase, mapLookup]
  | cons p rest ih =>
    obtain ⟨a, b⟩ := p
    simp only [mapErase]
    by_cases hak : a = k
    · subst hak
      rw [if_pos rfl, ih]
      by_cases hk' : a = k' <;> simp [hk', mapLookup]
    · rw [if_neg hak]
      simp only [mapLookup]
      by_cases hk' : a = k'
      · subst hk'
        have hkk' : ¬ k = a := fun h => hak h.symm
        simp [if_neg hkk']
      · simp [hk', ih]

/-- Keys with distinct bindings determine values: in a map whose key list
has no duplicates, two bindings of the same key are the same binding. -/
theorem nodupKeys_eq {α : Type u} (m : SMap α)
    (hnd : (m.map Prod.fst).Nodup) {k : String} {v w : α}
    (h1 : (k, v) ∈ m) (h2 : (k, w) ∈ m) : v = w := by
  induction m with
  | nil => simp at h1
  | cons p rest ih =>
    obtain ⟨a, b⟩ := p
    simp only [List.map_cons, List.nodup_cons] at hnd
    rcases List.mem_cons.mp h1 with h1 | h1 <;>
      rcases List.mem_cons.mp h2 with h2 | h2
    · rw [Prod.mk.injEq] at h1 h2
      rw [h1.2, h2.2]
    · exfalso
      apply hnd.1
      rw [Prod.mk.injEq] at h1
      exact h1.1 ▸ (List.mem_map_of_mem Prod.fst h2)
    · exfalso
      apply hnd.1
      rw [Prod.mk.injEq] at h2
      exact h2.1 ▸ (List.mem_map_of_mem Prod.fst h1)
    · exact ih hnd.2 h1 h2

theorem mapLookup_mem {α : Type u} {m : SMap α} {k : String} {v : α}
    (h : mapLookup m k = some v) : (k, v) ∈ m := by
  induction m with
  | nil => simp [mapLookup] at h
  | cons p rest ih =>
    obtain ⟨a, b⟩ := p
    by_cases hak : a = k
    · subst hak
      simp [mapLookup] at h
      simp [h]
    · simp [mapLookup, hak] at h
      exact List.mem_cons_of_mem _ (ih h)

/-! ## fetchShards lemmas -/

theorem addShard_buckets (st : StreamerState) (sh : Shard) :
    (addShard st sh).inProcessShards = st.inProcessShards ∧
    (addShard st sh).processedShards = st.processedShards ∧
    (addShard st sh).shardSequenceNumbers = st.shardSequenceNumbers ∧
    (addShard st sh).stop = st.stop ∧
    (addShard st sh).streamARN = st.streamARN := by
  unfold addShard
  repeat' split
  all_goals exact ⟨rfl, rfl, rfl, rfl, rfl⟩

theorem addShard_eq_of_known (st : StreamerState) (sh : Shard)
    (h : shardKnown st sh.shardId = true) : addShard st sh = st := by
  unfold shardKnown at h
  unfold addShard
  by_cases h1 : (mapLookup st.allShards sh.shardId).isSome = true
  · simp [h1]
  · by_cases h2 : (mapLookup st.inProcessShards sh.shardId).isSome = true
    · simp [h1, h2]
    · by_cases h3 : (mapLookup st.processedShards sh.shardId).isSome = true
      · simp [h1, h2, h3]
      · simp [h1, h2, h3] at h

theorem addShard_known_of (st : StreamerState) (sh : Shard) (id : String)
    (h : shardKnown st id = true) : shardKnown (addShard st sh) id = true := by
  unfold addShard
  repeat' split
  any_goals exact h
  simp only [shardKnown, mapLookup_mapInsert] at h ⊢
  by_cases hid : sh.shardId = id
  · simp [hid]
  · simpa [hid] using h

theorem addShard_known_self (st : StreamerState) (sh : Shard) :
    shardKnown (addShard st sh) sh.shardId = true := by
  unfold addShard
  by_cases h1 : (mapLookup st.allShards sh.shardId).isSome = true
  · simp [h1, shardKnown]
  · by_cases h2 : (mapLookup st.inProcessShards sh.shardId).isSome = true
    · simp [h1, h2, shardKnown]
    · by_cases h3 : (mapLookup st.processedShards sh.shardId).isSome = true
      · simp [h1, h2, h3, shardKnown]
      · simp [h1, h2, h3, shardKnown, mapLookup_mapInsert]

theorem foldAdd_buckets (l : List Shard) (st : StreamerState) :
    (l.foldl addShard st).inProcessShards = st.inProcessShards ∧
    (l.foldl addShard st).processedShards = st.processedShards ∧
    (l.foldl addShard st).shardSequenceNumbers = st.shardSequenceNumbers ∧
    (l.foldl addShard st).stop = st.stop ∧
    (l.foldl addShard st).streamARN = st.streamARN := by
  induction l generalizing st with
  | nil => exact ⟨rfl, rfl, rfl, rfl, rfl⟩
  | cons sh l ih =>
    simp only [List.foldl_cons]
    have ha := addShard_buckets st sh
    have hl := ih (addShard st sh)
    exact ⟨hl.1.trans ha.1, hl.2.1.trans ha.2.1, hl.2.2.1.trans ha.2.2.1,
      hl.2.2.2.1.trans ha.2.2.2.1, hl.2.2.2.2.trans ha.2.2.2.2⟩

theorem foldAdd_known (l : List Shard) (st : StreamerState) (id : String)
    (h : shardKnown st id = true) : shardKnown (l.foldl addShard st) id = true := by
  induction l generalizing st with
  | nil => exact h
  | cons sh l ih =>
    simp only [List.foldl_cons]
    exact ih (addShard st sh) (addShard_known_of st sh id h)

theorem foldAdd_mem_known (l : List Shard) (st : StreamerState) (sh : Shard)
    (hm : sh ∈ l) : shardKnown (l.foldl addShard st) sh.shardId = true := by
  induction l generalizing st with
  | nil => cases hm
  | cons x l ih =>
    simp only [List.foldl_cons]
    rcases List.mem_cons.mp hm with h | h
    · subst h
      exact foldAdd_known l (addShard st sh) sh.shardId (addShard_known_self st sh)
    · exact ih (addShard st x) h

theorem foldAdd_id (l : List Shard) (st : StreamerState)
    (h : ∀ sh ∈ l, shardKnown st sh.shardId = true) : l.foldl addShard st = st := by
  induction l with
  | nil => rfl
  | cons x l ih =>
    simp only [List.foldl_cons]
    rw [addShard_eq_of_known st x (h x (List.mem_cons_self x l))]
    exact ih fun sh hs => h sh (List.mem_cons_of_mem x hs)

theorem pagesFold_buckets (pages : List (List Shard)) (st : StreamerState) :
    (pages.foldl (fun s page => page.foldl addShard s) st).inProcessShards =
        st.inProcessShards ∧
    (pages.foldl (fun s page => page.foldl addShard s) st).processedShards =
        st.processedShards ∧
    (pages.foldl (fun s page => page.foldl addShard s) st).shardSequenceNumbers =
        st.shardSequenceNumbers ∧
    (pages.foldl (fun s page => page.foldl addShard s) st).stop = st.stop ∧
    (pages.foldl (fun s page => page.foldl addShard s) st).streamARN =
        st.streamARN := by
  induction pages generalizing st with
  | nil => exact ⟨rfl, rfl, rfl, rfl, rfl⟩
  | cons page pages ih =>
    simp only [List.foldl_cons]
    have ha := foldAdd_buckets page st
    have hl := ih (page.foldl addShard st)
    exact ⟨hl.1.trans ha.1, hl.2.1.trans ha.2.1, hl.2.2.1.trans ha.2.2.1,
      hl.2.2.2.1.trans ha.2.2.2.1, hl.2.2.2.2.trans ha.2.2.2.2⟩

theorem pagesFold_known (pages : List (List Shard)) (st : StreamerState)
    (id : String) (h : shardKnown st id = true) :
    shardKnown (pages.foldl (fun s page => page.foldl addShard s) st) id = true := by
  induction pages generalizing st with
  | nil => exact h
  | cons page pages ih =>
    simp only [List.foldl_cons]
    exact ih (page.foldl addShard st) (foldAdd_known page st id h)

theorem pagesFold_mem_known (pages : List (List Shard)) (st : StreamerState)
    (sh : Shard) (hm : sh ∈ pages.flatten) :
    shardKnown (pages.foldl (fun s page => page.foldl addShard s) st)
      sh.shardId = true := by
  induction pages generalizing st with
  | nil => cases hm
  | cons page pages ih =>
    simp only [List.foldl_cons]
    rw [List.flatten_cons] at hm
    rcases List.mem_append.mp hm with h | h
    · exact pagesFold_known pages (page.foldl addShard st) sh.shardId
        (foldAdd_mem_known page st sh h)
    · exact ih (page.foldl addShard st) h

theorem pagesFold_id (pages : List (List Shard)) (st : StreamerState)
    (h : ∀ sh ∈ pages.flatten, shardKnown st sh.shardId = true) :
    pages.foldl (fun s page => page.foldl addShard s) st = st := by
  induction pages with
  | nil => rfl
  | cons page pages ih =>
    simp only [List.foldl_cons]
    rw [foldAdd_id page st fun sh hs =>
      h sh (List.flatten_cons ▸ List.mem_append_left _ hs)]
    exact ih fun sh hs =>
      h sh (List.flatten_cons ▸ List.mem_append_right _ hs)

theorem foldAdd_lookup_all (l : List Shard) (st : StreamerState) (k : String) :
    (mapLookup (l.foldl addShard st).allShards k).isSome = true ↔
      ((mapLookup st.allShards k).isSome = true ∨
        ((∃ sh ∈ l, sh.shardId = k) ∧
          (mapLookup st.inProcessShards k).isSome = false ∧
          (mapLookup st.processedShards k).isSome = false)) := by
  induction l generalizing st with
  | nil => simp
  | cons sh l ih =>
    simp only [List.foldl_cons]
    rw [ih (addShard st sh)]
    have hb := addShard_buckets st sh
    rw [hb.1, hb.2.1]
    by_cases hsk : sh.shardId = k
    · subst hsk
      by_cases h1 : (mapLookup st.allShards sh.shardId).isSome = true
      · simp [addShard, h1]
      · by_cases h2 : (mapLookup st.inProcessShards sh.shardId).isSome = true
        · simp [addShard, h1, h2]
        · by_cases h3 : (mapLookup st.processedShards sh.shardId).isSome = true
          · simp [addShard, h1, h2, h3]
          · simp only [addShard, h1, h2, h3, if_false]
            simp [mapLookup_mapInsert, h1,
              Bool.not_eq_true (mapLookup st.inProcessShards sh.shardId).isSome ▸ h2,
              h2, h3]
    · have hall : mapLookup (addShard st sh).allShards k = mapLookup st.allShards k := by
        unfold addShard
        repeat' split
        any_goals rfl
        simp [mapLookup_mapInsert, hsk]
      rw [hall]
      constructor
      · rintro (h | ⟨⟨x, hx, hxk⟩, hb2, hb3⟩)
        · exact Or.inl h
        · exact Or.inr ⟨⟨x, List.mem_cons_of_mem sh hx, hxk⟩, hb2, hb3⟩
      · rintro (h | ⟨⟨x, hx, hxk⟩, hb2, hb3⟩)
        · exact Or.inl h
        · rcases List.mem_cons.mp hx with hxe | hxm
          · exact absurd (hxe ▸ hxk) hsk
          · exact Or.inr ⟨⟨x, hxm, hxk⟩, hb2, hb3⟩

theorem pagesFold_lookup_all (pages : List (List Shard)) (st : StreamerState)
    (k : String) :
    (mapLookup (pages.foldl (fun s page => page.foldl addShard s) st).allShards
        k).isSome = true ↔
      ((mapLookup st.allShards k).isSome = true ∨
        ((∃ sh ∈ pages.flatten, sh.shardId = k) ∧
          (mapLookup st.inProcessShards k).isSome = false ∧
          (mapLookup st.processedShards k).isSome = false)) := by
  induction pages generalizing st with
  | nil => simp [List.flatten]
  | cons page pages ih =>
    simp only [List.foldl_cons]
    rw [ih (page.foldl addShard st)]
    have hb := foldAdd_buckets page st
    rw [hb.1, hb.2.1, foldAdd_lookup_all page st k]
    constructor
    · rintro ((h | ⟨⟨x, hx, hxk⟩, h2, h3⟩) | ⟨⟨x, hx, hxk⟩, h2, h3⟩)
      · exact Or.inl h
      · exact Or.inr
          ⟨⟨x, List.flatten_cons ▸ List.mem_append_left _ hx, hxk⟩, h2, h3⟩
      · exact Or.inr
          ⟨⟨x, List.flatten_cons ▸ List.mem_append_right _ hx, hxk⟩, h2, h3⟩
    · rintro (h | ⟨⟨x, hx, hxk⟩, h2, h3⟩)
      · exact Or.inl (Or.inl h)
      · rw [List.flatten_cons] at hx
        rcases List.mem_append.mp hx with hm | hm
        · exact Or.inl (Or.inr ⟨⟨x, hm, hxk⟩, h2, h3⟩)
        · exact Or.inr ⟨⟨x, hm, hxk⟩, h2, h3⟩

/-! ## Promotion-pass lemmas -/

theorem promoteShard_fields (st : StreamerState) (sh : Shard) :
    (promoteShard st sh).processedShards = st.processedShards ∧
    (promoteShard st sh).shardSequenceNumbers = st.shardSequenceNumbers ∧
    (promoteShard st sh).stop = st.stop ∧
    (promoteShard st sh).streamARN = st.streamARN := by
  unfold promoteShard
  repeat' split
  all_goals exact ⟨rfl, rfl, rfl, rfl⟩

theorem promoteFold_fields (l : List Shard) (st : StreamerState) :
    (l.foldl promoteShard st).processedShards = st.processedShards ∧
    (l.foldl promoteShard st).shardSequenceNumbers = st.shardSequenceNumbers ∧
    (l.foldl promoteShard st).stop = st.stop ∧
    (l.foldl promoteShard st).streamARN = st.streamARN := by
  induction l generalizing st with
  | nil => exact ⟨rfl, rfl, rfl, rfl⟩
  | cons sh l ih =>
    simp only [List.foldl_cons]
    have ha := promoteShard_fields st sh
    have hl := ih (promoteShard st sh)
    exact ⟨hl.1.trans ha.1, hl.2.1.trans ha.2.1, hl.2.2.1.trans ha.2.2.1,
      hl.2.2.2.trans ha.2.2.2⟩

theorem promoteFold_lookup_all (l : List Shard) (st : StreamerState) (k : String)
    (hstop : st.stop = false) :
    mapLookup (l.foldl promoteShard st).allShards k =
      (if l.any (fun sh => sh.shardId == k && promoteEligible st.processedShards sh)
       then none else mapLookup st.allShards k) := by
  induction l generalizing st with
  | nil => simp
  | cons sh l ih =>
    simp only [List.foldl_cons, List.any_cons]
    have hf := promoteShard_fields st sh
    have hstop1 : (promoteShard st sh).stop = false := hf.2.2.1.trans hstop
    rw [ih (promoteShard st sh) hstop1, hf.1]
    by_cases he : promoteEligible st.processedShards sh = true
    · by_cases hsk : sh.shardId = k
      · have hl : mapLookup (promoteShard st sh).allShards k = none := by
          simp [promoteShard, hstop, he, mapLookup_mapErase, hsk]
        rw [hl]
        simp [hsk, he]
      · have hl : mapLookup (promoteShard st sh).allShards k =
            mapLookup st.allShards k := by
          simp [promoteShard, hstop, he, mapLookup_mapErase, hsk]
        rw [hl]
        simp [hsk, he]
    · have he' : promoteEligible st.processedShards sh = false :=
        Bool.not_eq_true _ ▸ he
      have hid : promoteShard st sh = st := by simp [promoteShard, hstop, he']
      rw [hid]
      simp [he']

theorem lastD_all_eq {α : Type u} (l : List α) (x : α) (d : Option α)
    (h : ∀ y ∈ l, y = x) (hne : l ≠ []) : lastD l d = some x := by
  induction l generalizing d with
  | nil => exact absurd rfl hne
  | cons a l ih =>
    cases l with
    | nil =>
      have := h a (List.mem_cons_self a [])
      simp [lastD, this]
    | cons b t =>
      rw [show lastD (a :: b :: t) d = lastD (b :: t) (some a) from rfl]
      exact ih (some a) (fun y hy => h y (List.mem_cons_of_mem a hy)) (by simp)

theorem promoteFold_lookup_inproc (l : List Shard) (st : StreamerState)
    (k : String) (hstop : st.stop = false) :
    mapLookup (l.foldl promoteShard st).inProcessShards k =
      lastD
        (l.filter fun sh => sh.shardId == k && promoteEligible st.processedShards sh)
        (mapLookup st.inProcessShards k) := by
  induction l generalizing st with
  | nil => rfl
  | cons sh l ih =>
    simp only [List.foldl_cons, List.filter_cons]
    have hf := promoteShard_fields st sh
    have hstop1 : (promoteShard st sh).stop = false := hf.2.2.1.trans hstop
    rw [ih (promoteShard st sh) hstop1, hf.1]
    by_cases he : promoteEligible st.processedShards sh = true
    · by_cases hsk : sh.shardId = k
      · have hl : mapLookup (promoteShard st sh).inProcessShards k = some sh := by
          simp [promoteShard, hstop, he, mapLookup_mapInsert, hsk]
        rw [hl]
        simp [hsk, he, lastD]
      · have hl : mapLookup (promoteShard st sh).inProcessShards k =
            mapLookup st.inProcessShards k := by
          simp [promoteShard, hstop, he, mapLookup_mapInsert, hsk]
        rw [hl]
        simp [hsk, he]
    · have he' : promoteEligible st.processedShards sh = false :=
        Bool.not_eq_true _ ▸ he
      have hid : promoteShard st sh = st := by simp [promoteShard, hstop, he']
      rw [hid]
      simp [he']

/-! ## Record-loop lemmas -/

theorem processRecs_ok_extend (L : List Listener) (sid : String)
    (xs ys : List DSRecord) (m : SMap String)
    (h : ∀ r ∈ xs, notifyListener L sid r = none) :
    processRecs L false sid (xs ++ ys) m =
      ⟨(processRecs L false sid ys (processRecs L false sid xs m).seqMap).seqMap,
       xs ++ (processRecs L false sid ys
         (processRecs L false sid xs m).seqMap).dispatched,
       (processRecs L false sid ys (processRecs L false sid xs m).seqMap).error⟩ := by
  induction xs generalizing m with
  | nil => simp [processRecs]
  | cons x xs ih =>
    have hx := h x (List.mem_cons_self x xs)
    simp only [List.cons_append, processRecs, hx, if_false, Bool.false_eq_true,
      List.append_eq]
    rw [ih (mapInsert m sid x.dynamodb.sequenceNumber)
      fun r hr => h r (List.mem_cons_of_mem x hr)]

theorem processRecs_fail (L : List Listener) (sid : String) (f : DSRecord)
    (post : List DSRecord) (m : SMap String) (e : GoError)
    (hf : notifyListener L sid f = some e) :
    processRecs L false sid (f :: post) m = ⟨m, [], some e⟩ := by
  simp [processRecs, hf]

theorem processRecs_dispatched_sublist (L : List Listener) (sid : String)
    (recs : List DSRecord) (m : SMap String) :
    (processRecs L false sid recs m).dispatched.Sublist recs := by
  induction recs generalizing m with
  | nil => simp [processRecs]
  | cons r rs ih =>
    cases hn : notifyListener L sid r with
    | some e => simp [processRecs, hn]
    | none =>
      simp only [processRecs, hn, if_false, Bool.false_eq_true]
      exact List.cons_sublist_cons.mpr (ih _)

theorem processPages_dispatched_sublist (L : List Listener) (sid : String)
    (pages : List (List DSRecord)) (n : Nat) (m : SMap String) :
    (processPages L false sid pages n m).dispatched.Sublist pages.flatten := by
  induction pages generalizing n m with
  | nil => simp [processPages]
  | cons page rest ih =>
    rw [List.flatten_cons]
    by_cases h5 : n = 5
    · simp [processPages, h5]
    · cases herr : (processRecs L false sid page m).error with
      | some e =>
        simp only [processPages, if_false, Bool.false_eq_true, if_neg h5, herr]
        exact (processRecs_dispatched_sublist L sid page m).trans
          (List.sublist_append_left page rest.flatten)
      | none =>
        simp only [processPages, if_false, Bool.false_eq_true, if_neg h5, herr]
        exact List.Sublist.append (processRecs_dispatched_sublist L sid page m)
          (ih _ _)

theorem processRecs_dispatched_all_ok (L : List Listener) (sid : String)
    (recs : List DSRecord) (m : SMap String) :
    ((processRecs L false sid recs m).dispatched.all
      fun r => (notifyListener L sid r).isNone) = true := by
  induction recs generalizing m with
  | nil => simp [processRecs]
  | cons r rs ih =>
    cases hn : notifyListener L sid r with
    | some e => simp [processRecs, hn]
    | none =>
      simp only [processRecs, hn, if_false, Bool.false_eq_true]
      simp [List.all_cons, hn, ih]

theorem processPages_dispatched_all_ok (L : List Listener) (sid : String)
    (pages : List (List DSRecord)) (n : Nat) (m : SMap String) :
    ((processPages L false sid pages n m).dispatched.all
      fun r => (notifyListener L sid r).isNone) = true := by
  induction pages generalizing n m with
  | nil => simp [processPages]
  | cons page rest ih =>
    by_cases h5 : n = 5
    · simp [processPages, h5]
    · cases herr : (processRecs L false sid page m).error with
      | some e =>
        simp only [processPages, if_false, Bool.false_eq_true, if_neg h5, herr]
        exact processRecs_dispatched_all_ok L sid page m
      | none =>
        simp only [processPages, if_false, Bool.false_eq_true, if_neg h5, herr]
        rw [List.all_append]
        rw [processRecs_dispatched_all_ok L sid page m, ih _ _]
        rfl

theorem lastSeqOf_append (xs ys : List DSRecord) (d : Option String) :
    lastSeqOf (xs ++ ys) d = lastSeqOf ys (lastSeqOf xs d) := by
  induction xs generalizing d with
  | nil => rfl
  | cons x xs ih =>
    simp only [List.cons_append, lastSeqOf]
    exact ih (some x.dynamodb.sequenceNumber)

theorem processRecs_lookup_self (L : List Listener) (sid : String)
    (recs : List DSRecord) (m : SMap String) :
    mapLookup (processRecs L false sid recs m).seqMap sid =
      lastSeqOf (processRecs L false sid recs m).dispatched (mapLookup m sid) := by
  induction recs generalizing m with
  | nil => simp [processRecs, lastSeqOf]
  | cons r rs ih =>
    cases hn : notifyListener L sid r with
    | some e => simp [processRecs, hn, lastSeqOf]
    | none =>
      simp only [processRecs, hn, if_false, Bool.false_eq_true, lastSeqOf]
      rw [ih (mapInsert m sid r.dynamodb.sequenceNumber), mapLookup_mapInsert]
      simp

theorem processRecs_lookup_other (L : List Listener) (sid : String)
    (recs : List DSRecord) (m : SMap String) (k : String) (hk : k ≠ sid) :
    mapLookup (processRecs L false sid recs m).seqMap k = mapLookup m k := by
  induction recs generalizing m with
  | nil => simp [processRecs]
  | cons r rs ih =>
    cases hn : notifyListener L sid r with
    | some e => simp [processRecs, hn]
    | none =>
      simp only [processRecs, hn, if_false, Bool.false_eq_true]
      rw [ih (mapInsert m sid r.dynamodb.sequenceNumber), mapLookup_mapInsert,
        if_neg fun h => hk h.symm]

theorem processPages_lookup_self (L : List Listener) (sid : String)
    (pages : List (List DSRecord)) (n : Nat) (m : SMap String) :
    mapLookup (processPages L false sid pages n m).seqMap sid =
      lastSeqOf (processPages L false sid pages n m).dispatched (mapLookup m sid) := by
  induction pages generalizing n m with
  | nil => simp [processPages, lastSeqOf]
  | cons page rest ih =>
    by_cases h5 : n = 5
    · simp [processPages, h5, lastSeqOf]
    · cases herr : (processRecs L false sid page m).error with
      | some e =>
        simp only [processPages, if_false, Bool.false_eq_true, if_neg h5, herr]
        exact processRecs_lookup_self L sid page m
      | none =>
        simp only [processPages, if_false, Bool.false_eq_true, if_neg h5, herr]
        rw [lastSeqOf_append, ← processRecs_lookup_self L sid page m]
        exact ih _ _

theorem processPages_lookup_other (L : List Listener) (sid : String)
    (pages : List (List DSRecord)) (n : Nat) (m : SMap String) (k : String)
    (hk : k ≠ sid) :
    mapLookup (processPages L false sid pages n m).seqMap k = mapLookup m k := by
  induction pages generalizing n m with
  | nil => simp [processPages]
  | cons page rest ih =>
    by_cases h5 : n = 5
    · simp [processPages, h5]
    · cases herr : (processRecs L false sid page m).error with
      | some e =>
        simp only [processPages, if_false, Bool.false_eq_true, if_neg h5, herr]
        exact processRecs_lookup_other L sid page m k hk
      | none =>
        simp only [processPages, if_false, Bool.false_eq_true, if_neg h5, herr]
        rw [ih _ _, processRecs_lookup_other L sid page m k hk]

/-! ## Claim theorems -/

/-- C3: for every record whose event kind is Remove, dispatching the record
issues no call at all to the target adapter (in particular no DeleteItem),
and the Remove handler returns a nil error: ReplicateRecord returns
(stopOnError = true, nil) with an empty adapter-call trace, whether or not
the replicator is stopped. -/
theorem c3_remove_never_deletes (dynamoTableName : String) (svc : SpannerBehavior)
    (stop : Bool) (shardId : String) (record : DSRecord)
    (h : record.eventName = some "REMOVE") :
    replicateRecord (provideOpMap dynamoTableName svc) stop (some shardId) record =
      .returned true none [] := by
  cases stop with
  | true => rfl
  | false =>
    simp [replicateRecord, h, provideOpMap, mapInsert, mapLookup, removeHandler,
      errorsWrap]

/-- Witness for C3 at a concrete Remove record. -/
theorem c3_remove_never_deletes_witness :
    removeRecordW.eventName = some "REMOVE" ∧
    replicateRecord (provideOpMap "users" svcOk) false (some "shard-1") removeRecordW =
      .returned true none [] :=
  ⟨rfl, c3_remove_never_deletes "users" svcOk false "shard-1" removeRecordW rfl⟩

/-- C8: for every record whose event kind is Insert or Modify, dispatch
performs exactly one PutItem call with the configured table name and the
record's NewImage as the item — and no update or delete call; the returned
error is the wrap of PutItem's outcome, identically for both kinds. -/
theorem c8_insert_modify_upsert (dynamoTableName : String) (svc : SpannerBehavior)
    (shardId : String) (record : DSRecord)
    (h : record.eventName = some "INSERT" ∨ record.eventName = some "MODIFY") :
    replicateRecord (provideOpMap dynamoTableName svc) false (some shardId) record =
      .returned true
        (errorsWrap (svc.putItemResult dynamoTableName record.dynamodb.newImage) "")
        [AdapterCall.putItem dynamoTableName record.dynamodb.newImage] := by
  rcases h with h | h <;>
    simp [replicateRecord, h, provideOpMap, mapInsert, mapLookup, insertHandler,
      modifyHandler]

/-- Witness for C8 at the concrete Insert record of the spec's scenario. -/
theorem c8_insert_modify_upsert_witness :
    replicateRecord (provideOpMap "users" svcOk) false (some "shard-1") insertRecordW =
      .returned true
        (errorsWrap (svcOk.putItemResult "users" insertRecordW.dynamodb.newImage) "")
        [AdapterCall.putItem "users" insertRecordW.dynamodb.newImage] :=
  c8_insert_modify_upsert "users" svcOk "shard-1" insertRecordW (Or.inl rfl)

/-- C10: ProvideReplicator registers handlers for exactly INSERT, MODIFY and
REMOVE, and ReplicateRecord invokes the map lookup's result without a
presence check: a running replicator handed a record whose EventName is nil
or outside the three registered kinds panics instead of returning an
error. -/
theorem c10_unregistered_event_panics (dynamoTableName : String)
    (svc : SpannerBehavior) (shardId : String) (record : DSRecord) (k : String)
    (h : record.eventName = none ∨
      ∃ name, record.eventName = some name ∧
        name ≠ "INSERT" ∧ name ≠ "MODIFY" ∧ name ≠ "REMOVE") :
    (replicateRecord (provideOpMap dynamoTableName svc) false (some shardId)
        record).isPanicked = true ∧
    ((mapLookup (provideOpMap dynamoTableName svc) k).isSome = true ↔
      (k = "INSERT" ∨ k = "MODIFY" ∨ k = "REMOVE")) := by
  constructor
  · rcases h with h | ⟨name, hn, h1, h2, h3⟩
    · simp [replicateRecord, h, ReplicateOutcome.isPanicked]
    · have h1' : ¬ ("INSERT" = name) := fun hh => h1 hh.symm
      have h2' : ¬ ("MODIFY" = name) := fun hh => h2 hh.symm
      have h3' : ¬ ("REMOVE" = name) := fun hh => h3 hh.symm
      simp [replicateRecord, hn, provideOpMap, mapInsert, mapLookup, h1', h2', h3',
        ReplicateOutcome.isPanicked]
  · by_cases hI : k = "INSERT"
    · simp [provideOpMap, mapInsert, mapLookup, hI]
    · by_cases hM : k = "MODIFY"
      · simp [provideOpMap, mapInsert, mapLookup, hM]
      · by_cases hR : k = "REMOVE"
        · simp [provideOpMap, mapInsert, mapLookup, hR]
        · have hI' : ¬ ("INSERT" = k) := fun hh => hI hh.symm
          have hM' : ¬ ("MODIFY" = k) := fun hh => hM hh.symm
          have hR' : ¬ ("REMOVE" = k) := fun hh => hR hh.symm
          simp [provideOpMap, mapInsert, mapLookup, hI', hM', hR', hI, hM, hR]

/-- Witness for C10 at a concrete unregistered event name. -/
theorem c10_unregistered_event_panics_witness :
    (replicateRecord (provideOpMap "users" svcOk) false (some "shard-1")
        unknownRecordW).isPanicked = true ∧
    ((mapLookup (provideOpMap "users" svcOk) "TRUNCATE").isSome = true ↔
      ("TRUNCATE" = "INSERT" ∨ "TRUNCATE" = "MODIFY" ∨ "TRUNCATE" = "REMOVE")) :=
  c10_unregistered_event_panics "users" svcOk "shard-1" unknownRecordW "TRUNCATE"
    (Or.inr ⟨"TRUNCATE", rfl, by decide, by decide, by decide⟩)

/-- C4: processShard requests its shard iterator exactly as the spec's
resume rule dictates: when the checkpoint map holds a sequence number for
the shard the request is AfterSequenceNumber with exactly that number
(never TrimHorizon), and when it holds none the request is TrimHorizon.
consumeShard passes mapLookup st.shardSequenceNumbers sh.shardId as the
lastSequenceId, which is the left-hand side instantiated here. -/
theorem c4_resume_iterator_request (streamARN : String)
    (listeners : List Listener) (stop : Bool) (shard : Shard)
    (pages : List (List DSRecord)) (m : SMap String) :
    (processShard streamARN listeners stop shard (mapLookup m shard.shardId)
        pages m).iteratorRequest =
      specResumeIteratorRequest streamARN shard.shardId (mapLookup m shard.shardId) := by
  cases mapLookup m shard.shardId <;> rfl

/-- C6: one push message is acknowledged exactly when payload decode and
dispatch all succeed; otherwise exactly one Nack and exactly one cancel
happen (and no Ack): per message, ack count plus nack count is one, and the
cancel count always equals the nack count. -/
theorem c6_push_ack_nack_cancel
    (unmarshal : List Nat → Except GoError StreamDataModel)
    (marshalMap : String → Except GoError Item)
    (listeners : List Listener) (data : List Nat) :
    (handlePushMessage unmarshal marshalMap listeners data = .acked ↔
      specPushSuccess unmarshal marshalMap listeners data = true) ∧
    ackCount (handlePushMessage unmarshal marshalMap listeners data) +
      nackCount (handlePushMessage unmarshal marshalMap listeners data) = 1 ∧
    nackCount (handlePushMessage unmarshal marshalMap listeners data) =
      cancelCount (handlePushMessage unmarshal marshalMap listeners data) := by
  unfold handlePushMessage specPushSuccess
  rcases h1 : unmarshal data with e | sr
  · simp [ackCount, nackCount, cancelCount]
  · rcases h2 : marshalMap sr.keys with e | keys <;> simp only [h2]
    · simp [ackCount, nackCount, cancelCount]
    · rcases h3 : marshalMap sr.newImage with e | newImage <;> simp only [h3]
      · simp [ackCount, nackCount, cancelCount]
      · rcases h4 : marshalMap sr.oldImage with e | oldImage <;> simp only [h4]
        · simp [ackCount, nackCount, cancelCount]
        · rcases h5 : notifyListener listeners sr.eventID
              ⟨some sr.eventName, ⟨sr.eventID, keys, newImage, oldImage⟩⟩ with _ | e <;>
            simp only [h5] <;> simp [ackCount, nackCount, cancelCount]

/-- C9: fetchShards is idempotent: a shard id ends up in the discovered
bucket exactly when it was already discovered or it occurs in the topology
and is absent from the in-process and processed buckets; already-known
shards are skipped, the other buckets are untouched, and running the
refresh twice against the same topology pages equals running it once. -/
theorem c9_fetchShards_idempotent (st : StreamerState)
    (pages : List (List Shard)) (k : String) (hstop : st.stop = false) :
    fetchShards (fetchShards st pages) pages = fetchShards st pages ∧
    (fetchShards st pages).inProcessShards = st.inProcessShards ∧
    (fetchShards st pages).processedShards = st.processedShards ∧
    (fetchShards st pages).shardSequenceNumbers = st.shardSequenceNumbers ∧
    ((mapLookup (fetchShards st pages).allShards k).isSome = true ↔
      ((mapLookup st.allShards k).isSome = true ∨
        (k ∈ pages.flatten.map Shard.shardId ∧
          (mapLookup st.inProcessShards k).isSome = false ∧
          (mapLookup st.processedShards k).isSome = false))) := by
  have hfold : fetchShards st pages =
      pages.foldl (fun s page => page.foldl addShard s) st := by
    simp [fetchShards, hstop]
  have hb := pagesFold_buckets pages st
  refine ⟨?_, ?_, ?_, ?_, ?_⟩
  · rw [hfold]
    have hstop1 : (pages.foldl (fun s page => page.foldl addShard s) st).stop = false :=
      hb.2.2.2.1.trans hstop
    rw [show fetchShards (pages.foldl (fun s page => page.foldl addShard s) st) pages =
        pages.foldl (fun s page => page.foldl addShard s)
          (pages.foldl (fun s page => page.foldl addShard s) st) by
      simp [fetchShards, hstop1]]
    exact pagesFold_id pages _ fun sh hm => pagesFold_mem_known pages st sh hm
  · rw [hfold]; exact hb.1
  · rw [hfold]; exact hb.2.1
  · rw [hfold]; exact hb.2.2.1
  · rw [hfold]
    have hmm : (k ∈ pages.flatten.map Shard.shardId) ↔
        (∃ sh ∈ pages.flatten, sh.shardId = k) := by
      simp only [List.mem_map, List.mem_flatten]
    rw [hmm]
    exact pagesFold_lookup_all pages st k

/-- Witness for C9: refreshing the two-page scenario topology twice from a
fresh streamer equals refreshing it once, and A is discovered. -/
theorem c9_fetchShards_idempotent_witness :
    fetchShards (fetchShards (provideStreamer "arn") pagesW) pagesW =
      fetchShards (provideStreamer "arn") pagesW ∧
    (fetchShards (provideStreamer "arn") pagesW).inProcessShards =
      (provideStreamer "arn").inProcessShards ∧
    (fetchShards (provideStreamer "arn") pagesW).processedShards =
      (provideStreamer "arn").processedShards ∧
    (fetchShards (provideStreamer "arn") pagesW).shardSequenceNumbers =
      (provideStreamer "arn").shardSequenceNumbers ∧
    ((mapLookup (fetchShards (provideStreamer "arn") pagesW).allShards "A").isSome =
        true ↔
      ((mapLookup (provideStreamer "arn").allShards "A").isSome = true ∨
        ("A" ∈ pagesW.flatten.map Shard.shardId ∧
          (mapLookup (provideStreamer "arn").inProcessShards "A").isSome = false ∧
          (mapLookup (provideStreamer "arn").processedShards "A").isSome = false))) :=
  c9_fetchShards_idempotent (provideStreamer "arn") pagesW "A" rfl

/-- C2: in one promotion pass, a discovered shard whose parentId is null or
whose parent is already processed is moved into the in-process bucket and
removed from the discovered bucket, while a shard whose parent is not yet
processed stays in the discovered bucket (to be re-evaluated on the next
pass) and does not enter in-process; the processed bucket is untouched.
promoteEligible is exactly the source's condition: parentShardId nil or
parent present in processedShards. -/
theorem c2_parent_ordering_promotion (st : StreamerState) (sh : Shard)
    (hstop : st.stop = false)
    (hwk : ∀ p ∈ st.allShards, (Prod.snd p).shardId = Prod.fst p)
    (hnd : (st.allShards.map Prod.fst).Nodup)
    (hlook : mapLookup st.allShards sh.shardId = some sh) :
    mapLookup (promoteShards st).allShards sh.shardId =
      (if promoteEligible st.processedShards sh then none else some sh) ∧
    mapLookup (promoteShards st).inProcessShards sh.shardId =
      (if promoteEligible st.processedShards sh then some sh
       else mapLookup st.inProcessShards sh.shardId) ∧
    (promoteShards st).processedShards = st.processedShards := by
  have hmem : sh ∈ st.allShards.map Prod.snd :=
    List.mem_map_of_mem Prod.snd (mapLookup_mem hlook)
  have huniq : ∀ x ∈ st.allShards.map Prod.snd, x.shardId = sh.shardId → x = sh := by
    intro x hx hxid
    obtain ⟨p, hp, hps⟩ := List.mem_map.mp hx
    have hkey : p.1 = sh.shardId := by rw [← hwk p hp, hps, hxid]
    have h1 : (sh.shardId, x) ∈ st.allShards := by
      rw [← hkey, ← hps]
      exact Prod.mk.eta ▸ hp
    exact nodupKeys_eq st.allShards hnd h1 (mapLookup_mem hlook)
  have hany : ((st.allShards.map Prod.snd).any
        fun x => x.shardId == sh.shardId && promoteEligible st.processedShards x) =
      promoteEligible st.processedShards sh := by
    by_cases he : promoteEligible st.processedShards sh = true
    · rw [he]
      exact List.any_eq_true.mpr ⟨sh, hmem, by simp [he]⟩
    · have he' : promoteEligible st.processedShards sh = false :=
        Bool.not_eq_true _ ▸ he
      rw [he']
      apply List.any_eq_false.mpr
      intro x hx hpx
      rw [Bool.and_eq_true] at hpx
      obtain ⟨hid, hel⟩ := hpx
      have hxe : x = sh := huniq x hx (by simpa using hid)
      rw [hxe] at hel
      exact he hel
  refine ⟨?_, ?_, (promoteFold_fields _ st).1⟩
  · rw [show promoteShards st = (st.allShards.map Prod.snd).foldl promoteShard st
      from rfl]
    rw [promoteFold_lookup_all _ st sh.shardId hstop, hany, hlook]
  · rw [show promoteShards st = (st.allShards.map Prod.snd).foldl promoteShard st
      from rfl]
    rw [promoteFold_lookup_inproc _ st sh.shardId hstop]
    by_cases he : promoteEligible st.processedShards sh = true
    · rw [he, if_pos rfl]
      apply lastD_all_eq
      · intro y hy
        have hym := List.mem_filter.mp hy
        have hpy := hym.2
        rw [Bool.and_eq_true] at hpy
        exact huniq y hym.1 (by simpa using hpy.1)
      · intro hnil
        have : sh ∈ (st.allShards.map Prod.snd).filter
            fun x => x.shardId == sh.shardId && promoteEligible st.processedShards x :=
          List.mem_filter.mpr ⟨hmem, by simp [he]⟩
        rw [hnil] at this
        cases this
    · have he' : promoteEligible st.processedShards sh = false :=
        Bool.not_eq_true _ ▸ he
      rw [he', if_neg (by simp)]
      have hfil : ((st.allShards.map Prod.snd).filter
          fun x => x.shardId == sh.shardId && promoteEligible st.processedShards x) =
          [] := by
        apply List.filter_eq_nil_iff.mpr
        intro x hx hpx
        rw [Bool.and_eq_true] at hpx
        obtain ⟨hid, hel⟩ := hpx
        have hxe : x = sh := huniq x hx (by simpa using hid)
        rw [hxe] at hel
        exact he hel
      rw [hfil]
      rfl

/-- Witness for C2: in the scenario state where A and B are discovered and
nothing is processed, B (child of the unprocessed A) stays discovered and
does not enter in-process. -/
theorem c2_parent_ordering_promotion_witness :
    mapLookup (promoteShards stABW).allShards shardB.shardId =
      (if promoteEligible stABW.processedShards shardB then none else some shardB) ∧
    mapLookup (promoteShards stABW).inProcessShards shardB.shardId =
      (if promoteEligible stABW.processedShards shardB then some shardB
       else mapLookup stABW.inProcessShards shardB.shardId) ∧
    (promoteShards stABW).processedShards = stABW.processedShards :=
  c2_parent_ordering_promotion stABW shardB rfl (by decide) (by decide) (by decide)

/-- Counterexample for C5: the empty-read counter is never reset, so the
claim's consecutive-counting reading is false: on pages whose longest run
of consecutive empty reads is 4 (a non-empty page sits between the 4th and
5th empty page), processShard still returns (complete = false, nil) — the
non-empty page did not prevent the threshold from being reached. -/
theorem c5_consecutive_counter_counterexample :
    consecutiveEmptyReaches 5 pagesC5 0 = false ∧
    (processShard "arn" [] false shardA none pagesC5 []).complete = false ∧
    (processShard "arn" [] false shardA none pagesC5 []).error = none ∧
    (processShard "arn" [] false shardA none pagesC5 []).dispatched =
      [insertRecordW] := by
  refine ⟨by decide, ?_, ?_, ?_⟩ <;> rfl

/-- C5 (amended): the empty-read counter counts empty pages cumulatively
within one processShard call and is never reset by a non-empty page. When
consumption reaches 5 empty pages — consecutively from the start, or with
successfully dispatched non-empty pages in between — and a further page
exists, processShard returns (complete = false, nil): no error, no record
dispatched by the empty reads, checkpoints advanced only by the non-empty
pages actually read; and a shard whose processShard reports incomplete
without error keeps its place in the in-process bucket (consumeShard only
updates the checkpoint map). -/
theorem c5_empty_yield_amended
    (streamARN : String) (L : List Listener) (shard : Shard) (ls : Option String)
    (m : SMap String) (p q : List DSRecord) (rest : List (List DSRecord))
    (hp : p ≠ [])
    (hr : (processRecs L false shard.shardId p m).error = none)
    (env : String → List (List DSRecord)) (st : StreamerState) (sh : Shard)
    (hst : st.stop = false)
    (hc : (processShard st.streamARN L false sh
        (mapLookup st.shardSequenceNumbers sh.shardId) (env sh.shardId)
        st.shardSequenceNumbers).complete = false)
    (he : (processShard st.streamARN L false sh
        (mapLookup st.shardSequenceNumbers sh.shardId) (env sh.shardId)
        st.shardSequenceNumbers).error = none) :
    processShard streamARN L false shard ls ([[], [], [], [], []] ++ q :: rest) m =
      ⟨shardIteratorInputFor streamARN shard ls, false, none, m, []⟩ ∧
    processShard streamARN L false shard ls ([[], [], [], [], p, []] ++ q :: rest) m =
      ⟨shardIteratorInputFor streamARN shard ls, false, none,
        (processRecs L false shard.shardId p m).seqMap,
        (processRecs L false shard.shardId p m).dispatched⟩ ∧
    consumeShard env L st sh =
      .ok { st with shardSequenceNumbers :=
        (processShard st.streamARN L false sh
          (mapLookup st.shardSequenceNumbers sh.shardId) (env sh.shardId)
          st.shardSequenceNumbers).seqMap } := by
  refine ⟨?_, ?_, ?_⟩
  · simp [processShard, processPages, processRecs]
  · have hlen : ¬ (p.length = 0) := by simpa [List.length_eq_zero] using hp
    simp [processShard, processPages, processRecs, hr, hlen]
  · simp only [consumeShard, hst, if_false, Bool.false_eq_true]
    simp [he, hc]

/-- Witness for C5's amended theorem at concrete pages: five leading empty
pages, the interleaved variant around one non-empty page, and a shard fed
six empty pages that stays in-process. -/
theorem c5_empty_yield_amended_witness :
    processShard "arn" [] false shardA none ([[], [], [], [], []] ++ [] :: []) [] =
      ⟨shardIteratorInputFor "arn" shardA none, false, none, [], []⟩ ∧
    processShard "arn" [] false shardA none
        ([[], [], [], [], [insertRecordW], []] ++ [] :: []) [] =
      ⟨shardIteratorInputFor "arn" shardA none, false, none,
        (processRecs [] false shardA.shardId [insertRecordW] []).seqMap,
        (processRecs [] false shardA.shardId [insertRecordW] []).dispatched⟩ ∧
    consumeShard envC5 [] stABW shardA =
      .ok { stABW with shardSequenceNumbers :=
        (processShard stABW.streamARN [] false shardA
          (mapLookup stABW.shardSequenceNumbers shardA.shardId)
          (envC5 shardA.shardId) stABW.shardSequenceNumbers).seqMap } :=
  c5_empty_yield_amended "arn" [] shardA none [] [insertRecordW] [] []
    (by decide) rfl envC5 stABW shardA rfl (by decide) (by decide)

/-- C7: a dispatch failure is fatal to the shard's consumption: when the
records before f dispatch cleanly and f's dispatch returns error e (the
listener flagging stopOnError), processShard aborts at once with
(complete = false, e) — identical to its run on the failing page alone, so
no further page is fetched — its checkpoint map is exactly the one built
from the records dispatched before f (f's sequence number is not written),
consumeShard turns the error into an aborted pass (no move to processed),
and at the replicator a rejected PutItem is wrapped by errors.Wrap and
returned with stopOnError = true. -/
theorem c7_dispatch_failure_fatal
    (streamARN : String) (L : List Listener) (shard : Shard) (ls : Option String)
    (pre post : List DSRecord) (f : DSRecord) (restPages : List (List DSRecord))
    (m : SMap String) (e : GoError)
    (hok : ∀ r ∈ pre, notifyListener L shard.shardId r = none)
    (hf : notifyListener L shard.shardId f = some e)
    (env : String → List (List DSRecord)) (st : StreamerState) (sh : Shard)
    (hst : st.stop = false)
    (herr : (processShard st.streamARN L false sh
        (mapLookup st.shardSequenceNumbers sh.shardId) (env sh.shardId)
        st.shardSequenceNumbers).error = some e)
    (tableName : String) (svc : SpannerBehavior) (sid : String) (rIns : DSRecord)
    (hIns : rIns.eventName = some "INSERT") (e' : GoError)
    (hput : svc.putItemResult tableName rIns.dynamodb.newImage = some e') :
    processShard streamARN L false shard ls ((pre ++ f :: post) :: restPages) m =
      ⟨shardIteratorInputFor streamARN shard ls, false, some e,
        (processRecs L false shard.shardId pre m).seqMap, pre⟩ ∧
    processShard streamARN L false shard ls ((pre ++ f :: post) :: restPages) m =
      processShard streamARN L false shard ls [pre ++ f :: post] m ∧
    consumeShard env L st sh = .error e ∧
    replicateRecord (provideOpMap tableName svc) false (some sid) rIns =
      .returned true (some (GoError.wrap "" e'))
        [AdapterCall.putItem tableName rIns.dynamodb.newImage] := by
  have hpage : processRecs L false shard.shardId (pre ++ f :: post) m =
      ⟨(processRecs L false shard.shardId pre m).seqMap, pre, some e⟩ := by
    rw [processRecs_ok_extend L shard.shardId pre (f :: post) m hok,
      processRecs_fail L shard.shardId f post
        (processRecs L false shard.shardId pre m).seqMap e hf]
    simp
  refine ⟨?_, ?_, ?_, ?_⟩
  · simp [processShard, processPages, hpage]
  · simp [processShard, processPages, hpage]
  · simp only [consumeShard, hst, if_false, Bool.false_eq_true]
    simp [herr]
  · simp [replicateRecord, hIns, provideOpMap, mapInsert, mapLookup,
      insertHandler, hput, errorsWrap]

/-- Witness for C7: record 1 dispatches, record 2 fails with error boom;
the concrete shard aborts, stays unprocessed, and the failing replicator
wraps the rejected put. -/
theorem c7_dispatch_failure_fatal_witness :
    processShard "arn" [listenerW] false shardA none
        (([rec1W] ++ rec2W :: []) :: [[rec1W]]) [] =
      ⟨shardIteratorInputFor "arn" shardA none, false, some (GoError.base "boom"),
        (processRecs [listenerW] false shardA.shardId [rec1W] []).seqMap, [rec1W]⟩ ∧
    processShard "arn" [listenerW] false shardA none
        (([rec1W] ++ rec2W :: []) :: [[rec1W]]) [] =
      processShard "arn" [listenerW] false shardA none [[rec1W] ++ rec2W :: []] [] ∧
    consumeShard envC7 [listenerW] stABW shardA = .error (GoError.base "boom") ∧
    replicateRecord (provideOpMap "users" svcFail) false (some "shard-1")
        insertRecordW =
      .returned true (some (GoError.wrap "" (GoError.base "put rejected")))
        [AdapterCall.putItem "users" insertRecordW.dynamodb.newImage] :=
  c7_dispatch_failure_fatal "arn" [listenerW] shardA none [rec1W] [] rec2W
    [[rec1W]] [] (GoError.base "boom") (by decide) (by decide) envC7 stABW shardA
    rfl (by decide) "users" svcFail "shard-1" insertRecordW rfl
    (GoError.base "put rejected") rfl

/-- C1: over one shard consumption run started from the recorded checkpoint,
the shard's checkpoint entry always equals the sequence number of the last
successfully dispatched record (and keeps its initial value when nothing
was dispatched), every record in the dispatched trace passed notifyListener
without error (the checkpoint is advanced only on successful dispatch —
the per-page threading of the updated map into the next page's read is
processPages' recursion), entries of other shards are untouched, and for
any order R under which the initial checkpoint followed by the incoming
records' sequence numbers is pairwise ordered, the checkpoint history
(initial value followed by the dispatched sequence numbers, in write
order) is pairwise ordered too — monotone non-decreasing for the stream's
delivery order. -/
theorem c1_checkpoint_advancement (R : String → String → Prop)
    (streamARN : String) (L : List Listener) (shard : Shard)
    (pages : List (List DSRecord)) (m : SMap String) (k : String)
    (hk : k ≠ shard.shardId)
    (hmono : List.Pairwise R ((mapLookup m shard.shardId).toList ++
        pages.flatten.map fun r => r.dynamodb.sequenceNumber)) :
    mapLookup (processShard streamARN L false shard (mapLookup m shard.shardId)
        pages m).seqMap shard.shardId =
      lastSeqOf (processShard streamARN L false shard (mapLookup m shard.shardId)
        pages m).dispatched (mapLookup m shard.shardId) ∧
    ((processShard streamARN L false shard (mapLookup m shard.shardId)
        pages m).dispatched.all
      fun r => (notifyListener L shard.shardId r).isNone) = true ∧
    mapLookup (processShard streamARN L false shard (mapLookup m shard.shardId)
        pages m).seqMap k = mapLookup m k ∧
    List.Pairwise R ((mapLookup m shard.shardId).toList ++
      (processShard streamARN L false shard (mapLookup m shard.shardId)
        pages m).dispatched.map fun r => r.dynamodb.sequenceNumber) := by
  refine ⟨?_, ?_, ?_, ?_⟩
  · simpa only [processShard]
      using processPages_lookup_self L shard.shardId pages 0 m
  · simpa only [processShard]
      using processPages_dispatched_all_ok L shard.shardId pages 0 m
  · simpa only [processShard]
      using processPages_lookup_other L shard.shardId pages 0 m k hk
  · simp only [processShard]
    exact List.Pairwise.sublist
      (List.Sublist.append_left
        ((processPages_dispatched_sublist L shard.shardId pages 0 m).map
          fun r => r.dynamodb.sequenceNumber)
        ((mapLookup m shard.shardId).toList))
      hmono

/-- Witness for C1: a fresh checkpoint map and a single one-record page;
every dispatch succeeds, the checkpoint becomes sequence number 1 and is
trivially monotone. -/
theorem c1_checkpoint_advancement_witness :
    mapLookup (processShard "arn" [] false shardA
        (mapLookup ([] : SMap String) shardA.shardId) [[rec1W]] []).seqMap
        shardA.shardId =
      lastSeqOf (processShard "arn" [] false shardA
        (mapLookup ([] : SMap String) shardA.shardId) [[rec1W]] []).dispatched
        (mapLookup ([] : SMap String) shardA.shardId) ∧
    ((processShard "arn" [] false shardA
        (mapLookup ([] : SMap String) shardA.shardId) [[rec1W]] []).dispatched.all
      fun r => (notifyListener [] shardA.shardId r).isNone) = true ∧
    mapLookup (processShard "arn" [] false shardA
        (mapLookup ([] : SMap String) shardA.shardId) [[rec1W]] []).seqMap "X" =
      mapLookup ([] : SMap String) "X" ∧
    List.Pairwise (fun a b => a ≤ b)
      ((mapLookup ([] : SMap String) shardA.shardId).toList ++
        (processShard "arn" [] false shardA
          (mapLookup ([] : SMap String) shardA.shardId) [[rec1W]] []).dispatched.map
          fun r => r.dynamodb.sequenceNumber) :=
  c1_checkpoint_advancement (fun a b => a ≤ b) "arn" [] shardA [[rec1W]] [] "X"
    (by decide) (by simp [mapLookup])

end DynamodbAdapter
